import Mathlib

/-!
Verification of the Supportrr session-lifecycle core against its design
specification.

The development shallowly embeds the parts of the TypeScript source that the
specification's claims are about:

* `src/database.ts` — the SQLite session store (`user_threads` table) and its
  operations `getActiveThread`, `createThread`, `incrementAttempts`,
  `deactivateThread`/`closeThread`, `getExpiredThreads`.  The table is
  modelled as a list of records in insertion order; the SQL `UPDATE`/`SELECT`
  statements become list traversals with exactly the same `WHERE` predicates.
  `is_active` is stored as `INTEGER 0/1` and only ever written as `0` or `1`,
  so it is modelled as `Bool`.
* `src/handlers/messageHandler.ts` — `verifyThreadIsActive`, the
  reconciliation step of `handleMessage`, the duplicate-attempt path
  (`handleExistingThread`), the warning policy of `sendThreadLinkDM`, the
  create/compensate path of `createNewThread`, and the event-loop race
  structure around the `threadCreationInProgress` marker.
* `src/handlers/threadHandler.ts` — the per-record step of
  `cleanupExpiredThreads` and the whole sweep, with the external Discord
  behaviour supplied by an oracle.
-/

namespace Supportrr

/-- Session record, from the `user_threads` table and the `UserThread`
interface of `database.ts`.  The `id INTEGER PRIMARY KEY AUTOINCREMENT`
column is represented by the record's position in the store list and is not
needed by any query the code performs.  Timestamps are milliseconds since
epoch (`Date.now()`), held as `Nat`. -/
structure Record where
  user_id : String
  thread_id : String
  channel_id : String
  created_at : Nat
  expires_at : Nat
  attempt_count : Nat
  is_active : Bool
deriving DecidableEq, Repr

/-- The session store: the rows of `user_threads` in insertion order. -/
abbrev Store : Type := List Record

/-- Rows matching `WHERE user_id = ? AND is_active = 1`. -/
def activeFor (s : Store) (u : String) : List Record :=
  s.filter (fun r => r.user_id == u && r.is_active)

/-- Fold step realising `ORDER BY created_at DESC LIMIT 1`: keep a row with
the greatest `created_at` (the first such row on ties). -/
def latestBy (acc : Option Record) (r : Record) : Option Record :=
  match acc with
  | none => some r
  | some a => if r.created_at > a.created_at then some r else some a

/-- Embeds `getActiveThread` of `database.ts`:
`SELECT * FROM user_threads WHERE user_id = ? AND is_active = 1
 ORDER BY created_at DESC LIMIT 1`. -/
def getActiveThread (s : Store) (u : String) : Option Record :=
  (activeFor s u).foldl latestBy none

/-- The fixed 24-hour TTL of `createThread`: `24 * 60 * 60 * 1000` ms. -/
def ttlMs : Nat := 24 * 60 * 60 * 1000

/-- Embeds `createThread` of `database.ts`: inserts a row with
`attempt_count = 0`, `is_active = 1`, `created_at = now`,
`expires_at = now + 24h`. -/
def createThread (s : Store) (u tid cid : String) (now : Nat) : Store :=
  s ++ [{ user_id := u, thread_id := tid, channel_id := cid,
          created_at := now, expires_at := now + ttlMs,
          attempt_count := 0, is_active := true }]

/-- The `UPDATE user_threads SET attempt_count = attempt_count + 1
WHERE user_id = ? AND is_active = 1` statement of `incrementAttempts`. -/
def bumpAttempts (s : Store) (u : String) : Store :=
  s.map (fun r => if r.user_id == u && r.is_active
                  then { r with attempt_count := r.attempt_count + 1 }
                  else r)

/-- Embeds `incrementAttempts` of `database.ts`: inside one transaction,
run the `UPDATE`, then re-select the latest active row's `attempt_count`,
mapping an absent row to `0` (`result?.attempt_count || 0`).  Returns the
updated store together with the value the function returns. -/
def incrementAttempts (s : Store) (u : String) : Store × Nat :=
  let s' := bumpAttempts s u
  (s', match getActiveThread s' u with
       | some r => r.attempt_count
       | none => 0)

/-- Embeds `deactivateThread` of `database.ts`:
`UPDATE user_threads SET is_active = 0 WHERE thread_id = ?`. -/
def deactivateThread (s : Store) (tid : String) : Store :=
  s.map (fun r => if r.thread_id == tid then { r with is_active := false } else r)

/-- Embeds `closeThread` of `database.ts`, which just calls
`deactivateThread`. -/
def closeThread (s : Store) (tid : String) : Store :=
  deactivateThread s tid

/-- Embeds `getExpiredThreads` of `database.ts`:
`SELECT * FROM user_threads WHERE expires_at < ? AND is_active = 1`,
with `?` = `Date.now()` passed in as `now`. -/
def getExpiredThreads (s : Store) (now : Nat) : List Record :=
  s.filter (fun r => r.expires_at < now && r.is_active)

/-- Number of active rows a user holds. -/
def countActive (s : Store) (u : String) : Nat :=
  (activeFor s u).length

/-! Reconciliation (`verifyThreadIsActive` and `handleMessage` lines 92–101
of `messageHandler.ts`).  The outcome of `client.channels.fetch(threadId)`
is supplied as an oracle value. -/

/-- Possible outcomes of the `client.channels.fetch(threadId)` call inside
`verifyThreadIsActive`: the promise rejects (network fault, unknown channel,
…), it resolves to `null` or to a non-thread channel, or it resolves to a
thread with the given `archived` and `locked` flags. -/
inductive FetchOutcome where
  | fetchThrew
  | notAThread
  | found (archived : Bool) (locked : Bool)
deriving DecidableEq, Repr

/-- Embeds `verifyThreadIsActive` of `messageHandler.ts`: `false` when the
fetch throws (the `catch` block), `false` for `null`/non-thread, `false`
when `thread.archived || thread.locked`, `true` otherwise. -/
def verifyThreadIsActive : FetchOutcome → Bool
  | .fetchThrew => false
  | .notAThread => false
  | .found a l => !(a || l)

/-- Embeds the reconciliation step of `handleMessage` (lines 92–101): a
store-recorded active thread `r` is verified; when verification says the
thread is not active, `deactivateThread(r.thread_id)` runs and the caller
continues as if no active thread existed (`none`); otherwise the record is
kept. -/
def reconcileActiveThread (s : Store) (r : Record) (fr : FetchOutcome) :
    Store × Option Record :=
  if verifyThreadIsActive fr then (s, some r)
  else (deactivateThread s r.thread_id, none)

/-! The duplicate-attempt path (`handleExistingThread` and
`sendThreadLinkDM` of `messageHandler.ts`). -/

/-- Warning text attached to the duplicate-attempt DM, one constructor per
branch of the conditional in `sendThreadLinkDM`. -/
inductive Warning where
  | finalWarning
  | remaining (k : Nat)
  | noWarning
deriving DecidableEq, Repr

/-- Embeds the warning choice of `sendThreadLinkDM`:
`attemptCount > 10` → the exceeded-maximum warning, else
`attemptCount >= 7` → the `10 - attemptCount` attempts-remaining warning,
else no warning. -/
def warningFor (attemptCount : Nat) : Warning :=
  if attemptCount > 10 then .finalWarning
  else if attemptCount ≥ 7 then .remaining (10 - attemptCount)
  else .noWarning

/-- Result of the duplicate-attempt path: the store after the attempt
increment, the post-increment count the code works with, the warning sent,
and whether the kick branch was taken. -/
structure DupOutcome where
  store : Store
  newAttemptCount : Nat
  warning : Warning
  kickTriggered : Bool
deriving Repr

/-- Embeds the state-relevant part of `handleExistingThread`: the message
deletion and DM are external side effects; the store mutation is
`incrementAttempts`, the DM carries `warningFor` of the returned count, and
`kickUser` is invoked exactly when `newAttemptCount > 10` (line 225). -/
def handleExistingThread (s : Store) (u : String) : DupOutcome :=
  let p := incrementAttempts s u
  { store := p.1, newAttemptCount := p.2,
    warning := warningFor p.2, kickTriggered := p.2 > 10 }

/-! The create/compensate path (`createNewThread` of `messageHandler.ts`).
The three fallible external operations — `message.startThread`, the
`createThread` database insert, and the compensating `thread.delete` — are
supplied as oracle booleans (`true` = the call succeeds). -/

/-- Oracle for one execution of `createNewThread`. -/
structure CreateEnv where
  openOk : Bool
  persistOk : Bool
  deleteOk : Bool
deriving DecidableEq, Repr

/-- Observable outcome of `createNewThread`: whether the Discord thread
exists afterwards, whether the database row exists afterwards, whether the
compensating `thread.delete` was attempted, and whether an error was
reported (re-thrown to the outer catch and logged). -/
structure CreateOutcome where
  externalThreadExists : Bool
  localRecordExists : Bool
  deleteAttempted : Bool
  errorLogged : Bool
deriving DecidableEq, Repr

/-- Embeds the control flow of `createNewThread`:
if `startThread` fails nothing was created; if the insert succeeds both
sides exist; if the insert fails, `thread.delete` is attempted — on delete
success the thread is gone, on delete failure the thread remains — and the
database error is re-thrown and logged either way. -/
def createNewThread (env : CreateEnv) : CreateOutcome :=
  if !env.openOk then
    { externalThreadExists := false, localRecordExists := false,
      deleteAttempted := false, errorLogged := true }
  else if env.persistOk then
    { externalThreadExists := true, localRecordExists := true,
      deleteAttempted := false, errorLogged := false }
  else if env.deleteOk then
    { externalThreadExists := false, localRecordExists := false,
      deleteAttempted := true, errorLogged := true }
  else
    { externalThreadExists := true, localRecordExists := false,
      deleteAttempted := true, errorLogged := true }

/-! The expiry sweep (`cleanupExpiredThreads` of `threadHandler.ts`). -/

/-- Discord API error as the sweep sees it: `code` is the numeric API error
code when one is present (`error.code`); `none` models errors without a
numeric code (plain network errors, string codes, rate-limit objects). -/
structure DiscordError where
  code : Option Nat
deriving DecidableEq, Repr

/-- The `permanentErrorCodes` list of `cleanupExpiredThreads` (line 132):
10003 Unknown Channel, 10004 Unknown Guild, 10008 Unknown Message,
50001 Missing Access, 50013 Missing Permissions. -/
def permanentErrorCodes : List Nat := [10003, 10004, 10008, 50001, 50013]

/-- Embeds `error.code && permanentErrorCodes.includes(error.code)`: an
absent (or falsy) code is transient. -/
def isPermanent (e : DiscordError) : Bool :=
  match e.code with
  | some c => permanentErrorCodes.contains c
  | none => false

/-- External behaviour of one expired thread during a sweep iteration:
the `client.channels.fetch` outcome, then (when the thread is found) the
outcomes of `setLocked` and `setArchived` — `none` means the call
succeeded, `some e` means it threw `e`. -/
inductive SweepFetch where
  | notFound
  | notAThread
  | threw (e : DiscordError)
  | found
deriving DecidableEq, Repr

/-- Oracle for one thread in one sweep. -/
structure ThreadWorld where
  fetch : SweepFetch
  lockFault : Option DiscordError
  archiveFault : Option DiscordError
deriving DecidableEq, Repr

/-- Side effects one sweep iteration emits (beyond the store write). -/
inductive SweepEffect where
  | locked (tid : String)
  | archived (tid : String)
  | loggedExpired (tid : String)
  | loggedError (tid : String)
deriving DecidableEq, Repr

/-- Embeds the per-record body of the `for` loop of
`cleanupExpiredThreads`: a fetch that rejects with code 10003 / status 404
is mapped to `null` and, like a non-thread result, leads to
`closeThread` with no further effects; any other fetch rejection is
re-thrown; on a found thread, lock then archive then `closeThread` and the
expiry log; any thrown error is caught and causes `closeThread` exactly
when `isPermanent`, otherwise the record is left untouched. -/
def sweepOne (s : Store) (tid : String) (w : ThreadWorld) :
    Store × List SweepEffect :=
  match w.fetch with
  | .notFound => (closeThread s tid, [])
  | .notAThread => (closeThread s tid, [])
  | .threw e =>
      if isPermanent e then (closeThread s tid, [.loggedError tid])
      else (s, [.loggedError tid])
  | .found =>
      match w.lockFault with
      | some e =>
          if isPermanent e then (closeThread s tid, [.loggedError tid])
          else (s, [.loggedError tid])
      | none =>
          match w.archiveFault with
          | some e =>
              if isPermanent e then
                (closeThread s tid, [.locked tid, .loggedError tid])
              else (s, [.locked tid, .loggedError tid])
          | none =>
              (closeThread s tid,
               [.locked tid, .archived tid, .loggedExpired tid])

/-- Embeds the whole sweep `cleanupExpiredThreads`: read
`getExpiredThreads`, then run the per-record body over each returned row in
order (one record's failure never aborts the loop — `sweepOne` is total),
accumulating effects. -/
def cleanupExpiredThreads (s : Store) (now : Nat)
    (world : String → ThreadWorld) : Store × List SweepEffect :=
  (getExpiredThreads s now).foldl
    (fun acc r =>
      let p := sweepOne acc.1 r.thread_id (world r.thread_id)
      (p.1, acc.2 ++ p.2))
    (s, [])

/-! Event-loop model of concurrent `handleMessage` invocations for one
user (`messageHandler.ts` lines 81–123 plus `createNewThread`).

Node's event loop runs JavaScript single-threaded: every handler
invocation executes synchronously up to its next `await` and can only be
interleaved with other invocations at `await` points.  Each concurrent
inbound message for the user is a task; a task's program counter names the
`await`-delimited segment it will run next, and a schedule is the order in
which the event loop resumes ready tasks.  Segments that contain no store
access and no marker access (the DM / message-delete / logging awaits of
the duplicate path, and the `logThreadCreated` await) are collapsed into
their successor, which removes no interleaving that can affect the store
or the `threadCreationInProgress` map.  The oracle `world tid` gives the
result `verifyThreadIsActive` produces for thread `tid` (its fetch is a
genuine suspension point).  In this model the external thread creation and
the database insert both succeed (the failure branches are modelled
separately by `createNewThread` above). -/

/-- Program counter of one `handleMessage` task:
* `start` — about to run the synchronous prefix: the
  `threadCreationInProgress` check (line 82), and, when no marker is set,
  straight on to the `getActiveThread` check (line 89);
* `waiting t` — suspended on task `t`'s creation promise (line 85);
* `verifying tid` — suspended in `verifyThreadIsActive`'s fetch;
* `deactivating tid` — verification said not-active; suspended on the
  dynamic `import` of line 97, about to deactivate and then start a
  creation;
* `creating` — suspended in `message.startThread`; on resumption the
  database insert runs;
* `finishing` — creation logged; about to run the `finally` that deletes
  the marker (line 113) and resolve;
* `duplicating` — routed to `handleExistingThread`; its store effect is
  the attempt increment;
* `done` — the invocation has returned. -/
inductive PC where
  | start
  | waiting (t : Nat)
  | verifying (tid : String)
  | deactivating (tid : String)
  | creating
  | finishing
  | duplicating
  | done
deriving DecidableEq, Repr

/-- Global state of the event-loop model: the store, the
`threadCreationInProgress` entry for the user (the id of the task whose
creation promise is registered there), each task's program counter, and a
counter for fresh Discord thread ids. -/
structure MState where
  store : Store
  marker : Option Nat
  tasks : Nat → PC
  fresh : Nat

/-- Thread id handed out by the `n`-th successful `startThread`. -/
def freshTid (n : Nat) : String :=
  "fresh-" ++ Nat.repr n

/-- Functional update of one task's program counter. -/
def updTask (f : Nat → PC) (i : Nat) (p : PC) : Nat → PC :=
  fun j => if j = i then p else f j

/-- A task is ready when it is not done and, if it awaits another task's
creation promise, that task has resolved. -/
def ready (st : MState) (i : Nat) : Bool :=
  match st.tasks i with
  | .done => false
  | .waiting t => st.tasks t == .done
  | _ => true

/-- The code from line 89 (`getActiveThread`) onward, shared by the
no-marker entry path and the waiting-resume path — note the code does NOT
re-check the marker after the `await` of line 85.  An active row sends the
task into verification; no row starts `createNewThread` (suspending in
`startThread`) and registers the creation promise in the marker map, all
within the same synchronous segment (lines 103–107). -/
def checkStep (u : String) (st : MState) (i : Nat) : MState :=
  match getActiveThread st.store u with
  | some r => { st with tasks := updTask st.tasks i (.verifying r.thread_id) }
  | none => { st with marker := some i, tasks := updTask st.tasks i .creating }

/-- One event-loop step: resume task `i` (if ready) and run its next
synchronous segment. -/
def step (world : String → Bool) (u cid : String) (now : Nat)
    (st : MState) (i : Nat) : MState :=
  if ready st i then
    match st.tasks i with
    | .start =>
        match st.marker with
        | some t => { st with tasks := updTask st.tasks i (.waiting t) }
        | none => checkStep u st i
    | .waiting _ => checkStep u st i
    | .verifying tid =>
        if world tid then { st with tasks := updTask st.tasks i .duplicating }
        else { st with tasks := updTask st.tasks i (.deactivating tid) }
    | .deactivating tid =>
        { st with store := deactivateThread st.store tid,
                  marker := some i,
                  tasks := updTask st.tasks i .creating }
    | .creating =>
        { st with store := createThread st.store u (freshTid st.fresh) cid now,
                  fresh := st.fresh + 1,
                  tasks := updTask st.tasks i .finishing }
    | .finishing =>
        { st with marker := none, tasks := updTask st.tasks i .done }
    | .duplicating =>
        { st with store := (incrementAttempts st.store u).1,
                  tasks := updTask st.tasks i .done }
    | .done => st
  else st

/-- Run a schedule: fold the step over the list of task resumptions. -/
def run (world : String → Bool) (u cid : String) (now : Nat)
    (st : MState) (sched : List Nat) : MState :=
  sched.foldl (step world u cid now) st

/-- Initial state for `n` simultaneous inbound messages over store `s`. -/
def initState (s : Store) (n : Nat) : MState :=
  { store := s, marker := none,
    tasks := fun i => if i < n then .start else .done, fresh := 0 }

/-- All of the `n` tasks have returned. -/
def Finished (n : Nat) (st : MState) : Prop :=
  ∀ i, i < n → st.tasks i = .done

/-- Sequential composition of `incrementAttempts` calls for one user:
applies the call `n` times, collecting each call's return value in
order. -/
def iterIncr (u : String) : Store → Nat → Store × List Nat
  | s, 0 => (s, [])
  | s, n + 1 =>
      let p := incrementAttempts s u
      let q := iterIncr u p.1 n
      (q.1, p.2 :: q.2)

/-- Row transformation performed by deactivating every thread id in
`tids`. -/
def flipTid (tids : List String) (r : Record) : Record :=
  if r.thread_id ∈ tids then { r with is_active := false } else r

/-! Inductive invariant for the serialized-creation argument: when no row
needs asynchronous verification (every thread the oracle is asked about is
genuinely active), the per-user state of the event-loop model moves through
three phases — nobody has started a creation yet, exactly one creation is
in flight under the marker, and the session exists. -/

/-- Phase A: no active row, no marker, every in-range task still at its
entry segment. -/
def InvA (u : String) (n : Nat) (st : MState) : Prop :=
  countActive st.store u = 0 ∧ st.marker = none
    ∧ ∀ i, i < n → st.tasks i = .start

/-- Phase B: no active row yet, one task `j` suspended in `startThread`
holding the marker, every other in-range task either at its entry segment
or parked on `j`'s creation promise. -/
def InvB (u : String) (n : Nat) (st : MState) : Prop :=
  countActive st.store u = 0
    ∧ ∃ j, j < n ∧ st.marker = some j ∧ st.tasks j = .creating
        ∧ ∀ i, i < n → i ≠ j → (st.tasks i = .start ∨ st.tasks i = .waiting j)

/-- Phase C: exactly one active row; no task is inserting or deactivating,
and a still-registered marker belongs to a task that has already inserted
and is about to clear it. -/
def InvC (u : String) (st : MState) : Prop :=
  countActive st.store u = 1
    ∧ (∀ i, st.tasks i ≠ .creating ∧ ∀ tid, st.tasks i ≠ .deactivating tid)
    ∧ (∀ j, st.marker = some j → st.tasks j = .finishing)

/-- Task slots beyond the `n` real tasks stay `done`. -/
def OutOfRange (n : Nat) (st : MState) : Prop :=
  ∀ i, n ≤ i → st.tasks i = .done

/-- The full invariant. -/
def Inv (u : String) (n : Nat) (st : MState) : Prop :=
  OutOfRange n st ∧ (InvA u n st ∨ InvB u n st ∨ InvC u st)

/-! Concrete inputs used by counterexamples and witnesses. -/

/-- An active session row whose Discord thread has gone stale (archived or
deleted out-of-band). -/
def staleRecord : Record :=
  { user_id := "u1", thread_id := "stale", channel_id := "chan",
    created_at := 0, expires_at := 50, attempt_count := 0, is_active := true }

/-- Verification oracle for the race: the stale thread verifies inactive,
every other thread (in particular the freshly created ones) verifies
active. -/
def raceWorld : String → Bool :=
  fun tid => tid != "stale"

/-- Schedule realising the race: both tasks run their synchronous entry
segment (the marker is still unset for both), both suspend in
verification of the stale row, then both deactivate it, both start and
finish a creation. -/
def raceSched : List Nat := [0, 1, 0, 1, 0, 1, 0, 1, 0, 1]

/-- Oracle under which every thread verifies active. -/
def allActiveWorld : String → Bool :=
  fun _ => true

/-- Schedule that completes two first-contact tasks one after the other. -/
def plainSched : List Nat := [0, 0, 0, 1, 1, 1]

/-- Active row used by the reconciliation counterexample. -/
def c2Rec : Record :=
  { user_id := "u2", thread_id := "t2", channel_id := "chan",
    created_at := 5, expires_at := 10, attempt_count := 3, is_active := true }

/-- Active row with nine recorded attempts. -/
def rec9 : Record :=
  { user_id := "u3", thread_id := "t3", channel_id := "chan",
    created_at := 5, expires_at := 10, attempt_count := 9, is_active := true }

/-- Active row with ten recorded attempts. -/
def rec10 : Record := { rec9 with attempt_count := 10 }

/-- Fresh active row used by the sequential-increment witness. -/
def c4Rec : Record :=
  { user_id := "u4", thread_id := "t4", channel_id := "chan",
    created_at := 5, expires_at := 10, attempt_count := 0, is_active := true }

/-- Sweep oracle: the thread is found but locking it throws
Missing Permissions (50013). -/
def w5 : ThreadWorld :=
  { fetch := .found, lockFault := some { code := some 50013 },
    archiveFault := none }

/-- Expired active row used by the sweep-idempotence witness. -/
def c6Rec : Record :=
  { user_id := "u6", thread_id := "t6", channel_id := "chan",
    created_at := 0, expires_at := 5, attempt_count := 0, is_active := true }

/-- Sweep oracle reporting every thread as already gone. -/
def c6World : String → ThreadWorld :=
  fun _ => { fetch := .notFound, lockFault := none, archiveFault := none }

/-- Active row whose thread id differs from the deactivated one. -/
def c9RecA : Record :=
  { user_id := "u9", thread_id := "alive", channel_id := "chan",
    created_at := 0, expires_at := 5, attempt_count := 0, is_active := true }

/-- Already-inactive row carrying the deactivated thread id. -/
def c9RecB : Record :=
  { user_id := "u9", thread_id := "gone", channel_id := "chan",
    created_at := 1, expires_at := 6, attempt_count := 2, is_active := false }

/-- Inactive row of the user whose increment should be a no-op. -/
def c10Rec : Record :=
  { user_id := "u10", thread_id := "t10", channel_id := "chan",
    created_at := 0, expires_at := 5, attempt_count := 4, is_active := false }

/-! Shared lemmas about the store operations. -/

/-- Mapping a function that fixes every element of a list is the identity. -/
theorem map_eq_self_of {α : Type} {l : List α} {f : α → α}
    (h : ∀ a ∈ l, f a = a) : l.map f = l := by
  induction l with
  | nil => rfl
  | cons x xs ih =>
      simp only [List.map_cons, h x (List.mem_cons_self x xs)]
      rw [ih fun a ha => h a (List.mem_cons_of_mem x ha)]

/-- The max-by-`created_at` fold never turns a `some` accumulator into
`none`. -/
theorem foldl_latestBy_some (l : List Record) (a : Record) :
    ∃ b, l.foldl latestBy (some a) = some b := by
  induction l generalizing a with
  | nil => exact ⟨a, rfl⟩
  | cons x xs ih =>
      simp only [List.foldl_cons, latestBy]
      split
      · exact ih x
      · exact ih a

/-- `getActiveThread` returns no row exactly when the user has no active
row. -/
theorem getActiveThread_eq_none_iff {s : Store} {u : String} :
    getActiveThread s u = none ↔ activeFor s u = [] := by
  unfold getActiveThread
  cases h : activeFor s u with
  | nil => simp
  | cons x xs =>
      simp only [List.foldl_cons, latestBy]
      obtain ⟨b, hb⟩ := foldl_latestBy_some xs x
      simp [hb]

/-- When the user holds exactly one active row, `getActiveThread` returns
it. -/
theorem getActiveThread_singleton {s : Store} {u : String} {r : Record}
    (h : activeFor s u = [r]) : getActiveThread s u = some r := by
  unfold getActiveThread
  rw [h]
  rfl

/-- `activeFor` commutes with a row transformation that preserves the
`user_id = ? AND is_active = 1` predicate. -/
theorem activeFor_map {s : Store} {u : String} {g : Record → Record}
    (hg : ∀ r : Record,
      ((g r).user_id == u && (g r).is_active) = (r.user_id == u && r.is_active)) :
    activeFor (s.map g) u = (activeFor s u).map g := by
  unfold activeFor
  rw [List.filter_map]
  congr 1
  exact List.filter_congr fun r _ => hg r

/-- The attempt-increment `UPDATE` maps each of the user's active rows to
the same row with `attempt_count + 1` and fixes every other row. -/
theorem activeFor_bump (s : Store) (u : String) :
    activeFor (bumpAttempts s u) u
      = (activeFor s u).map
          (fun r => { r with attempt_count := r.attempt_count + 1 }) := by
  unfold bumpAttempts
  rw [activeFor_map (g := fun r =>
        if r.user_id == u && r.is_active
        then { r with attempt_count := r.attempt_count + 1 } else r)]
  · apply List.map_congr_left
    intro r hr
    have hr' : r ∈ s.filter (fun r => r.user_id == u && r.is_active) := hr
    have : (r.user_id == u && r.is_active) = true := (List.mem_filter.mp hr').2
    simp [this]
  · intro r
    by_cases h : (r.user_id == u && r.is_active) = true
    · simp [h]
    · simp [h]

/-- Inserting a fresh session row appends one active row for the user. -/
theorem activeFor_create (s : Store) (u tid cid : String) (now : Nat) :
    activeFor (createThread s u tid cid now) u
      = activeFor s u
        ++ [{ user_id := u, thread_id := tid, channel_id := cid,
              created_at := now, expires_at := now + ttlMs,
              attempt_count := 0, is_active := true }] := by
  unfold createThread activeFor
  rw [List.filter_append]
  simp

/-- The attempt increment does not change how many active rows the user
holds. -/
theorem countActive_incr (s : Store) (u : String) :
    countActive (incrementAttempts s u).1 u = countActive s u := by
  show (activeFor (bumpAttempts s u) u).length = _
  rw [activeFor_bump, List.length_map]
  rfl

/-- Creating a session adds exactly one active row for the user. -/
theorem countActive_create (s : Store) (u tid cid : String) (now : Nat) :
    countActive (createThread s u tid cid now) u = countActive s u + 1 := by
  unfold countActive
  rw [activeFor_create, List.length_append]
  rfl

/-- Setting `is_active := false` on an already-inactive row leaves it
unchanged. -/
theorem record_inactive_eta {r : Record} (h : r.is_active = false) :
    { r with is_active := false } = r := by
  cases r
  simp_all

/-- Rewriting `attempt_count` to its current value leaves a row
unchanged. -/
theorem record_count_eta (r : Record) :
    { r with attempt_count := r.attempt_count } = r := by
  cases r
  rfl

/-- Projecting the field just written. -/
theorem record_count_proj (r : Record) (a : Nat) :
    ({ r with attempt_count := a } : Record).attempt_count = a := rfl

/-- Overwriting `attempt_count` twice keeps only the last write. -/
theorem record_count_overwrite (r : Record) (a b : Nat) :
    ({ ({ r with attempt_count := a }) with attempt_count := b } : Record)
      = { r with attempt_count := b } := rfl

/-- Behaviour of `incrementAttempts` when the user holds exactly one
active row: the transaction bumps that row and returns its new count. -/
theorem incrementAttempts_single {s : Store} {u : String} {r : Record}
    (h : activeFor s u = [r]) :
    incrementAttempts s u = (bumpAttempts s u, r.attempt_count + 1)
    ∧ activeFor (bumpAttempts s u) u
        = [{ r with attempt_count := r.attempt_count + 1 }] := by
  have hb : activeFor (bumpAttempts s u) u
      = [{ r with attempt_count := r.attempt_count + 1 }] := by
    rw [activeFor_bump, h]
    rfl
  refine ⟨?_, hb⟩
  show (bumpAttempts s u,
         match getActiveThread (bumpAttempts s u) u with
         | some r => r.attempt_count
         | none => 0) = _
  rw [getActiveThread_singleton hb]

/-! Shared lemmas about the expiry sweep. -/

/-- A sweep iteration whose fetch reports the thread gone just closes the
row and emits nothing. -/
theorem sweepOne_notFound {w : ThreadWorld} (hw : w.fetch = .notFound)
    (s : Store) (tid : String) :
    sweepOne s tid w = (closeThread s tid, []) := by
  unfold sweepOne
  rw [hw]

/-- When every expired row's external thread is gone, the sweep reduces to
folding `closeThread` over the expired rows and emits no effects. -/
theorem cleanup_allNotFound (s : Store) (now : Nat)
    (world : String → ThreadWorld)
    (h : ∀ r ∈ getExpiredThreads s now, (world r.thread_id).fetch = .notFound) :
    cleanupExpiredThreads s now world
      = ((getExpiredThreads s now).foldl
           (fun st r => closeThread st r.thread_id) s, []) := by
  unfold cleanupExpiredThreads
  generalize hl : getExpiredThreads s now = l at h
  clear hl
  induction l generalizing s with
  | nil => rfl
  | cons x xs ih =>
      simp only [List.foldl_cons]
      rw [sweepOne_notFound (h x (List.mem_cons_self x xs))]
      exact ih (closeThread s x.thread_id)
        fun r hr => h r (List.mem_cons_of_mem x hr)

/-- Folding `closeThread` over a list of rows deactivates exactly the
rows whose `thread_id` occurs in the list. -/
theorem foldl_close_eq_map (l : List Record) (s : Store) :
    l.foldl (fun st r => closeThread st r.thread_id) s
      = s.map (flipTid (l.map (fun r => r.thread_id))) := by
  induction l generalizing s with
  | nil =>
      simp only [List.foldl_nil, List.map_nil]
      rw [map_eq_self_of]
      intro r _
      simp [flipTid]
  | cons x xs ih =>
      simp only [List.foldl_cons]
      rw [ih]
      unfold closeThread deactivateThread
      rw [List.map_map]
      apply List.map_congr_left
      intro r _
      simp only [Function.comp_apply, flipTid, List.map_cons, List.mem_cons]
      by_cases hx : r.thread_id = x.thread_id
      · simp only [hx, beq_self_eq_true, if_pos]
        by_cases hm : x.thread_id ∈ xs.map (fun r => r.thread_id)
        · simp [hm]
        · simp [hm, hx]
      · have : (r.thread_id == x.thread_id) = false := by
          simp [hx]
        simp only [this, Bool.false_eq_true, if_neg, not_false_iff]
        by_cases hm : r.thread_id ∈ xs.map (fun r => r.thread_id)
        · simp [hm, hx]
        · simp [hm, hx]

theorem updTask_self (f : Nat → PC) (i : Nat) (p : PC) : updTask f i p i = p := by
  simp [updTask]

theorem updTask_other {j i : Nat} (hne : j ≠ i) (f : Nat → PC) (p : PC) :
    updTask f i p j = f j := by
  simp [updTask, hne]

theorem activeFor_eq_nil_of_count_zero {s : Store} {u : String}
    (h : countActive s u = 0) : activeFor s u = [] :=
  List.length_eq_zero.mp h

theorem exists_singleton_of_count_one {s : Store} {u : String}
    (h : countActive s u = 1) : ∃ r, activeFor s u = [r] :=
  List.length_eq_one.mp h

/-- Updating a task inside the range keeps out-of-range slots `done`. -/
theorem oor_upd {n : Nat} {st : MState} (hoor : OutOfRange n st) {i : Nat}
    (hi : i < n) (p : PC) : ∀ i', n ≤ i' → updTask st.tasks i p i' = .done := by
  intro i' hi'
  rw [updTask_other (by omega)]
  exact hoor i' hi'

/-- Updating a task to a non-inserting, non-deactivating segment preserves
the no-inserting/no-deactivating condition. -/
theorem invC_tasks_upd {st : MState}
    (hnc : ∀ i, st.tasks i ≠ .creating ∧ ∀ tid, st.tasks i ≠ .deactivating tid)
    (i : Nat) {p : PC} (hp1 : p ≠ .creating)
    (hp2 : ∀ tid, p ≠ .deactivating tid) :
    ∀ i', updTask st.tasks i p i' ≠ .creating
      ∧ ∀ tid, updTask st.tasks i p i' ≠ .deactivating tid := by
  intro i'
  by_cases h : i' = i
  · subst h
    rw [updTask_self]
    exact ⟨hp1, hp2⟩
  · rw [updTask_other h]
    exact hnc i'

/-- One event-loop step preserves the invariant (oracle everywhere
active). -/
theorem inv_step (world : String → Bool) (u cid : String) (now : Nat)
    (n : Nat) (hw : ∀ tid, world tid = true) {st : MState}
    (hinv : Inv u n st) (i : Nat) :
    Inv u n (step world u cid now st i) := by
  obtain ⟨hoor, hphase⟩ := hinv
  by_cases hr : ready st i = true
  case neg =>
    have hstep : step world u cid now st i = st := by
      simp [step, hr]
    rw [hstep]
    exact ⟨hoor, hphase⟩
  case pos =>
  have hin : i < n := by
    by_contra hge
    have hd : st.tasks i = .done := hoor i (by omega)
    simp [ready, hd] at hr
  rcases hphase with ⟨hc0, hm, hall⟩ | ⟨hc0, j, hj, hmark, hcreatj, hothers⟩ |
      ⟨hc1, hnc, hmfin⟩
  · -- Phase A: task i runs its entry segment and becomes the creator.
    have hpc : st.tasks i = .start := hall i hin
    have hget : getActiveThread st.store u = none :=
      getActiveThread_eq_none_iff.mpr (activeFor_eq_nil_of_count_zero hc0)
    have hstep : step world u cid now st i
        = { st with marker := some i, tasks := updTask st.tasks i .creating } := by
      simp [step, hr, hpc, hm, checkStep, hget]
    rw [hstep]
    refine ⟨oor_upd hoor hin _, Or.inr (Or.inl ⟨hc0, i, hin, rfl, ?_, ?_⟩)⟩
    · exact updTask_self _ _ _
    · intro i' hi' hne
      simp only [updTask_other hne]
      exact Or.inl (hall i' hi')
  · -- Phase B.
    by_cases hij : i = j
    · -- The creator resumes: insert the row, move to the finally segment.
      subst hij
      have hstep : step world u cid now st i
          = { st with
                store := createThread st.store u (freshTid st.fresh) cid now,
                fresh := st.fresh + 1,
                tasks := updTask st.tasks i .finishing } := by
        simp [step, hr, hcreatj]
      rw [hstep]
      refine ⟨oor_upd hoor hin _, Or.inr (Or.inr ⟨?_, ?_, ?_⟩)⟩
      · rw [countActive_create, hc0]
      · intro i'
        by_cases h2 : i' = i
        · subst h2
          simp only [updTask_self]
          exact ⟨by simp, fun tid => by simp⟩
        · simp only [updTask_other h2]
          by_cases h3 : i' < n
          · rcases hothers i' h3 h2 with h4 | h4 <;>
              exact ⟨by simp [h4], fun tid => by simp [h4]⟩
          · have h4 := hoor i' (by omega)
            exact ⟨by simp [h4], fun tid => by simp [h4]⟩
      · intro j' hj'
        rw [hmark] at hj'
        have : j' = i := (Option.some.inj hj').symm
        subst this
        exact updTask_self _ _ _
    · -- Some other task runs while the creator holds the marker.
      have hio := hothers i hin hij
      rcases hio with hpc | hpc
      · -- Entry segment: the marker is set, so the task parks on it.
        have hstep : step world u cid now st i
            = { st with tasks := updTask st.tasks i (.waiting j) } := by
          simp [step, hr, hpc, hmark]
        rw [hstep]
        refine ⟨oor_upd hoor hin _, Or.inr (Or.inl ⟨hc0, j, hj, hmark, ?_, ?_⟩)⟩
        · simp only [updTask_other (fun h => hij h.symm)]
          exact hcreatj
        · intro i' hi' hne
          by_cases h2 : i' = i
          · subst h2
            simp only [updTask_self]
            exact Or.inr trivial
          · simp only [updTask_other h2]
            exact hothers i' hi' hne
      · -- Parked on the creator's promise: the promise is unresolved, so
        -- the task is not ready — contradiction with `hr`.
        exfalso
        have hnd : (st.tasks j == PC.done) = false := by
          simp [hcreatj]
        simp [ready, hpc, hnd] at hr
  · -- Phase C.
    obtain ⟨r, hractive⟩ := exists_singleton_of_count_one hc1
    have hget : getActiveThread st.store u = some r :=
      getActiveThread_singleton hractive
    cases hpc : st.tasks i with
    | start =>
        cases hm : st.marker with
        | some t =>
            have hstep : step world u cid now st i
                = { st with tasks := updTask st.tasks i (.waiting t) } := by
              simp [step, hr, hpc, hm]
            rw [hstep]
            refine ⟨oor_upd hoor hin _,
              Or.inr (Or.inr ⟨hc1,
                invC_tasks_upd hnc i (by simp) (fun tid => by simp), ?_⟩)⟩
            intro j' hj'
            have hfin := hmfin j' hj'
            have hne : j' ≠ i := fun h => by
              rw [h, hpc] at hfin
              cases hfin
            simp only [updTask_other hne]
            exact hfin
        | none =>
            have hstep : step world u cid now st i
                = { st with
                      tasks := updTask st.tasks i (.verifying r.thread_id) } := by
              simp [step, hr, hpc, hm, checkStep, hget]
            rw [hstep]
            refine ⟨oor_upd hoor hin _,
              Or.inr (Or.inr ⟨hc1,
                invC_tasks_upd hnc i (by simp) (fun tid => by simp), ?_⟩)⟩
            intro j' hj'
            have hfin := hmfin j' hj'
            have hne : j' ≠ i := fun h => by
              rw [h, hpc] at hfin
              cases hfin
            simp only [updTask_other hne]
            exact hfin
    | waiting t =>
        have hstep : step world u cid now st i
            = { st with tasks := updTask st.tasks i (.verifying r.thread_id) } := by
          simp [step, hr, hpc, checkStep, hget]
        rw [hstep]
        refine ⟨oor_upd hoor hin _,
          Or.inr (Or.inr ⟨hc1,
            invC_tasks_upd hnc i (by simp) (fun tid => by simp), ?_⟩)⟩
        intro j' hj'
        have hfin := hmfin j' hj'
        have hne : j' ≠ i := fun h => by
          rw [h, hpc] at hfin
          cases hfin
        simp only [updTask_other hne]
        exact hfin
    | verifying tid =>
        have hstep : step world u cid now st i
            = { st with tasks := updTask st.tasks i .duplicating } := by
          simp [step, hr, hpc, hw tid]
        rw [hstep]
        refine ⟨oor_upd hoor hin _,
          Or.inr (Or.inr ⟨hc1,
            invC_tasks_upd hnc i (by simp) (fun tid => by simp), ?_⟩)⟩
        intro j' hj'
        have hfin := hmfin j' hj'
        have hne : j' ≠ i := fun h => by
          rw [h, hpc] at hfin
          cases hfin
        simp only [updTask_other hne]
        exact hfin
    | deactivating tid => exact absurd hpc ((hnc i).2 tid)
    | creating => exact absurd hpc (hnc i).1
    | finishing =>
        have hstep : step world u cid now st i
            = { st with marker := none, tasks := updTask st.tasks i .done } := by
          simp [step, hr, hpc]
        rw [hstep]
        refine ⟨oor_upd hoor hin _,
          Or.inr (Or.inr ⟨hc1,
            invC_tasks_upd hnc i (by simp) (fun tid => by simp), ?_⟩)⟩
        intro j' hj'
        cases hj'
    | duplicating =>
        have hstep : step world u cid now st i
            = { st with
                  store := (incrementAttempts st.store u).1,
                  tasks := updTask st.tasks i .done } := by
          simp [step, hr, hpc]
        rw [hstep]
        refine ⟨oor_upd hoor hin _,
          Or.inr (Or.inr ⟨?_, invC_tasks_upd hnc i (by simp)
            (fun tid => by simp), ?_⟩)⟩
        · rw [countActive_incr]
          exact hc1
        · intro j' hj'
          have hfin := hmfin j' hj'
          have hne : j' ≠ i := fun h => by
            rw [h, hpc] at hfin
            cases hfin
          simp only [updTask_other hne]
          exact hfin
    | done =>
        exfalso
        simp [ready, hpc] at hr

/-- Any schedule preserves the invariant. -/
theorem inv_run (world : String → Bool) (u cid : String) (now : Nat)
    (n : Nat) (hw : ∀ tid, world tid = true) {st : MState}
    (hinv : Inv u n st) (sched : List Nat) :
    Inv u n (run world u cid now st sched) := by
  induction sched generalizing st with
  | nil => exact hinv
  | cons x xs ih => exact ih (inv_step world u cid now n hw hinv x)

/-- The initial state satisfies the invariant when the user has no active
row. -/
theorem inv_init (u : String) (n : Nat) {s : Store}
    (h0 : activeFor s u = []) : Inv u n (initState s n) := by
  refine ⟨?_, Or.inl ⟨?_, rfl, ?_⟩⟩
  · intro i hi
    simp [initState, Nat.not_lt.mpr hi]
  · simp [countActive, initState, h0]
  · intro i hi
    simp [initState, hi]

/-! Claim theorems. -/

/-- Claim C1, counterexample: the at-most-one-active-session invariant
does NOT hold at every reachable state.  Starting from a reachable store
holding one active but externally stale row, two concurrent contact events
both pass the (unset) marker check synchronously, both suspend in
verification, and each then deactivates the stale row and creates a
session — ending with TWO active rows for the user.  The schedule is a
legal event-loop interleaving because the marker is consulted before the
verification suspension and never re-checked after it. -/
theorem c1_counterexample :
    countActive (run raceWorld "u1" "chan" 100 (initState [staleRecord] 2)
      raceSched).store "u1" = 2 := by
  decide

/-- Claim C1, amended: when N concurrent first-contact events arrive for a
user with NO active session record (so no stale row forces an
asynchronous verification; the oracle reports every thread active), the
in-progress marker does serialize creation: under every schedule at most
one active record exists, and every completed schedule ends with exactly
one. -/
theorem c1_amended (world : String → Bool) (u cid : String) (now : Nat)
    (s : Store) (n : Nat) (sched : List Nat)
    (hw : ∀ tid, world tid = true) (h0 : activeFor s u = []) :
    countActive (run world u cid now (initState s n) sched).store u ≤ 1
    ∧ (1 ≤ n → Finished n (run world u cid now (initState s n) sched) →
        countActive (run world u cid now (initState s n) sched).store u = 1) := by
  obtain ⟨hoor, hABC⟩ := inv_run world u cid now n hw (inv_init u n h0) sched
  constructor
  · rcases hABC with ⟨hc, _⟩ | ⟨hc, _⟩ | ⟨hc, _⟩ <;> omega
  · intro hn hfin
    rcases hABC with ⟨hc, hm, hall⟩ | ⟨hc, j, hj, hmark, hcreat, _⟩ | ⟨hc, _, _⟩
    · have h1 := hfin 0 (by omega)
      rw [hall 0 (by omega)] at h1
      cases h1
    · have h1 := hfin j hj
      rw [hcreat] at h1
      cases h1
    · exact hc

/-- Claim C1, witness for the amended theorem: two simultaneous
first-contact events over an empty store, run to completion, leave
exactly one active record. -/
theorem c1_amended_witness :
    countActive (run allActiveWorld "u1" "chan" 100 (initState [] 2)
      plainSched).store "u1" = 1 :=
  (c1_amended allActiveWorld "u1" "chan" 100 [] 2 plainSched
    (fun _ => rfl) rfl).2 (by decide)
    (by intro i hi; interval_cases i <;> decide)

/-- Claim C2, counterexample: when the verification fetch throws (a
transient fault), the handler does NOT fail open — it reports no active
session and deactivates the local record, contradicting the claim that
the record is kept and reported still active. -/
theorem c2_counterexample :
    (reconcileActiveThread [c2Rec] c2Rec .fetchThrew).2 = none
    ∧ (reconcileActiveThread [c2Rec] c2Rec .fetchThrew).1 ≠ [c2Rec] := by
  decide

/-- Claim C2, amended: reconciliation fails CLOSED.  The locally recorded
session survives verification only when the fetch finds a thread that is
neither archived nor locked; on every other outcome — including a thrown
fetch (transient fault) — the local record is deactivated and no active
session is reported. -/
theorem c2_amended (s : Store) (r : Record) (fr : FetchOutcome) :
    (fr = .found false false → reconcileActiveThread s r fr = (s, some r))
    ∧ (fr ≠ .found false false →
        reconcileActiveThread s r fr = (deactivateThread s r.thread_id, none)) := by
  constructor
  · rintro rfl
    rfl
  · intro h
    unfold reconcileActiveThread
    cases fr with
    | fetchThrew => rfl
    | notAThread => rfl
    | found a l =>
        cases a with
        | true => rfl
        | false =>
            cases l with
            | true => rfl
            | false => exact absurd rfl h

/-- Claim C2, witness for the amended theorem: an archived thread leads to
deactivation and a no-active-session report. -/
theorem c2_amended_witness :
    reconcileActiveThread [c2Rec] c2Rec (.found true false)
      = (deactivateThread [c2Rec] "t2", none) :=
  (c2_amended [c2Rec] c2Rec (.found true false)).2 (by decide)

/-- Claim C3: on a duplicate contact event the kick branch is taken if and
only if the post-increment attempt count strictly exceeds 10; with one
active record at count `c` the post-increment count is `c + 1`, so a count
reaching exactly 10 never kicks and a count reaching 11 does. -/
theorem c3_kick_boundary (s : Store) (u : String) (r : Record)
    (h : activeFor s u = [r]) :
    (handleExistingThread s u).newAttemptCount = r.attempt_count + 1
    ∧ ((handleExistingThread s u).kickTriggered = true
        ↔ r.attempt_count + 1 > 10) := by
  have hp := (incrementAttempts_single h).1
  constructor
  · show (incrementAttempts s u).2 = r.attempt_count + 1
    rw [hp]
  · show (decide ((incrementAttempts s u).2 > 10)) = true ↔ _
    rw [hp]
    simp

/-- Claim C3, witness: the 10th recorded attempt (count 9 → 10) does not
kick; the 11th (count 10 → 11) does. -/
theorem c3_witness :
    (handleExistingThread [rec9] "u3").kickTriggered = false
    ∧ (handleExistingThread [rec10] "u3").kickTriggered = true := by
  have h9 := (c3_kick_boundary [rec9] "u3" rec9 (by decide)).2
  have h10 := (c3_kick_boundary [rec10] "u3" rec10 (by decide)).2
  constructor
  · have hne : ¬((handleExistingThread [rec9] "u3").kickTriggered = true) :=
      fun hk => absurd (h9.mp hk) (by decide)
    simpa using hne
  · exact h10.mpr (by decide)

/-- Claim C4: with exactly one active record, `n` sequentially applied
`incrementAttempts` calls leave the user with that same single active
record whose `attempt_count` grew by exactly `n`, and the `k`-th call
(0-based) returns `attempt_count + (k + 1)` — the count as of its own
increment. -/
theorem c4_increment_sequential (s : Store) (u : String) (r : Record)
    (h : activeFor s u = [r]) (n : Nat) :
    activeFor (iterIncr u s n).1 u
      = [{ r with attempt_count := r.attempt_count + n }]
    ∧ (iterIncr u s n).2
      = (List.range n).map (fun k => r.attempt_count + (k + 1)) := by
  induction n generalizing s r with
  | zero =>
      constructor
      · show activeFor s u = _
        rw [h]
        simp [record_count_eta]
      · rfl
  | succ n ih =>
      have hp := (incrementAttempts_single h).1
      have hact := (incrementAttempts_single h).2
      have ih' := ih (bumpAttempts s u)
        { r with attempt_count := r.attempt_count + 1 } hact
      constructor
      · show activeFor (iterIncr u (bumpAttempts s u) n).1 u = _
        rw [ih'.1, record_count_proj, record_count_overwrite,
          Nat.add_assoc, Nat.add_comm 1 n]
      · show (incrementAttempts s u).2
            :: (iterIncr u (bumpAttempts s u) n).2 = _
        rw [hp, ih'.2, List.range_succ_eq_map, List.map_cons, List.map_map]
        congr 1
        apply List.map_congr_left
        intro a _
        simp only [Function.comp_apply]
        rw [record_count_proj]
        omega

/-- Claim C4, witness: three sequential calls over a single fresh active
record give back `[1, 2, 3]` and leave the count at 3. -/
theorem c4_witness :
    activeFor (iterIncr "u4" [c4Rec] 3).1 "u4"
      = [{ c4Rec with attempt_count := c4Rec.attempt_count + 3 }]
    ∧ (iterIncr "u4" [c4Rec] 3).2
      = (List.range 3).map (fun k => c4Rec.attempt_count + (k + 1)) :=
  c4_increment_sequential [c4Rec] "u4" c4Rec (by decide) 3

/-- Claim C5: when the sweep's lock/archive step throws, the local record
is deactivated if and only if the error carries one of the five permanent
Discord API codes — 10003 Unknown Channel, 10004 Unknown Guild, 10008
Unknown Message, 50001 Missing Access, 50013 Missing Permissions; every
other failure leaves the store unchanged for the next sweep to retry. -/
theorem c5_permanent_fault_classification (s : Store) (tid : String)
    (w : ThreadWorld) (e : DiscordError)
    (h : w.fetch = .found
        ∧ (w.lockFault = some e
            ∨ (w.lockFault = none ∧ w.archiveFault = some e))) :
    (sweepOne s tid w).1 = (if isPermanent e then closeThread s tid else s)
    ∧ (isPermanent e = true
        ↔ ∃ c, e.code = some c
            ∧ (c = 10003 ∨ c = 10004 ∨ c = 10008 ∨ c = 50001 ∨ c = 50013)) := by
  obtain ⟨hf, hl⟩ := h
  constructor
  · unfold sweepOne
    rw [hf]
    rcases hl with h1 | ⟨h1, h2⟩
    · rw [h1]
      by_cases hperm : isPermanent e <;> simp [hperm]
    · rw [h1, h2]
      by_cases hperm : isPermanent e <;> simp [hperm]
  · cases hc : e.code with
    | none => simp [isPermanent, hc]
    | some c => simp [isPermanent, hc, permanentErrorCodes]

/-- Claim C5, witness: a lock failure with code 50013 (Missing
Permissions) deactivates the record immediately. -/
theorem c5_witness :
    (sweepOne [c6Rec] "t5" w5).1
      = (if isPermanent { code := some 50013 } then closeThread [c6Rec] "t5"
         else [c6Rec]) :=
  (c5_permanent_fault_classification [c6Rec] "t5" w5 { code := some 50013 }
    ⟨rfl, Or.inl rfl⟩).1

/-- Claim C6: over sessions whose external thread is already gone
("not found"), the sweep deactivates each such record, and a second sweep
over the result is a strict no-op — it returns the same store and emits no
effects — because inactive rows are no longer returned by the
expired-sessions query. -/
theorem c6_sweep_idempotent (s : Store) (now : Nat)
    (world : String → ThreadWorld)
    (h : ∀ r ∈ getExpiredThreads s now,
        (world r.thread_id).fetch = .notFound) :
    (∀ r ∈ getExpiredThreads s now,
        ∀ r' ∈ (cleanupExpiredThreads s now world).1,
          r'.thread_id = r.thread_id → r'.is_active = false)
    ∧ cleanupExpiredThreads (cleanupExpiredThreads s now world).1 now world
        = ((cleanupExpiredThreads s now world).1, []) := by
  have hmap : (cleanupExpiredThreads s now world).1
      = s.map (flipTid ((getExpiredThreads s now).map (fun r => r.thread_id))) := by
    rw [cleanup_allNotFound s now world h, foldl_close_eq_map]
  have hexp : getExpiredThreads (cleanupExpiredThreads s now world).1 now = [] := by
    rw [hmap]
    apply List.filter_eq_nil_iff.mpr
    intro a ha
    obtain ⟨x, hx, hfx⟩ := List.mem_map.mp ha
    by_cases hm : x.thread_id ∈ (getExpiredThreads s now).map (fun r => r.thread_id)
    · rw [← hfx]
      simp [flipTid, hm]
    · rw [← hfx]
      unfold flipTid
      rw [if_neg hm]
      intro hpred
      apply hm
      apply List.mem_map.mpr
      refine ⟨x, ?_, rfl⟩
      exact List.mem_filter.mpr ⟨hx, hpred⟩
  constructor
  · intro r hr r' hr' heq
    rw [hmap] at hr'
    obtain ⟨x, hx, hfx⟩ := List.mem_map.mp hr'
    by_cases hm : x.thread_id ∈ (getExpiredThreads s now).map (fun r => r.thread_id)
    · rw [← hfx]
      simp [flipTid, hm]
    · exfalso
      apply hm
      have hxr : r' = x := by
        rw [← hfx]
        simp [flipTid, hm]
      apply List.mem_map.mpr
      refine ⟨r, hr, ?_⟩
      rw [← heq, ← hxr]
  · show (getExpiredThreads (cleanupExpiredThreads s now world).1 now).foldl
        _ ((cleanupExpiredThreads s now world).1, []) = _
    rw [hexp, List.foldl_nil]

/-- Claim C6, witness: one expired record whose thread is gone — the
second sweep returns the deactivated store unchanged with no effects. -/
theorem c6_witness :
    cleanupExpiredThreads (cleanupExpiredThreads [c6Rec] 100 c6World).1
        100 c6World
      = ((cleanupExpiredThreads [c6Rec] 100 c6World).1, []) :=
  (c6_sweep_idempotent [c6Rec] 100 c6World (by decide)).2

/-- Claim C7, counterexample: the create path CAN leave an orphaned
external session.  When the external open succeeds, the local insert
fails, and the compensating delete itself fails (its error is caught and
only logged), the Discord thread still exists with no local record. -/
theorem c7_counterexample :
    (createNewThread
        { openOk := true, persistOk := false, deleteOk := false }).externalThreadExists = true
    ∧ (createNewThread
        { openOk := true, persistOk := false, deleteOk := false }).localRecordExists = false := by
  decide

/-- Claim C7, amended: when the insert fails after a successful open, the
compensating delete is always attempted before the error is surfaced, and
whenever that delete succeeds no outcome of the create path leaves an
external session without a local record; only a failure of the delete
itself leaves an orphan. -/
theorem c7_amended (env : CreateEnv) :
    (env.openOk = true → env.persistOk = false →
        (createNewThread env).deleteAttempted = true)
    ∧ (env.deleteOk = true →
        ¬((createNewThread env).externalThreadExists = true
            ∧ (createNewThread env).localRecordExists = false)) := by
  obtain ⟨o, p, d⟩ := env
  cases o <;> cases p <;> cases d <;> decide

/-- Claim C7, witness: with a succeeding compensation delete, the
persistence-failure path attempts the delete and leaves no orphan. -/
theorem c7_witness :
    (createNewThread
        { openOk := true, persistOk := false, deleteOk := true }).deleteAttempted = true
    ∧ ¬((createNewThread
          { openOk := true, persistOk := false, deleteOk := true }).externalThreadExists = true
        ∧ (createNewThread
            { openOk := true, persistOk := false, deleteOk := true }).localRecordExists = false) :=
  ⟨(c7_amended _).1 rfl rfl, (c7_amended _).2 rfl⟩

/-- Claim C8, counterexample: at post-increment count exactly 10 the DM
carries the "0 attempt(s) remaining" warning, not the final
removal-imminent warning the claim requires for `n ≥ 10`. -/
theorem c8_counterexample :
    warningFor 10 = Warning.remaining 0
    ∧ warningFor 10 ≠ Warning.finalWarning := by
  decide

/-- Claim C8, amended: the warning policy is final warning for `n > 10`,
remaining-attempts warning `10 - n` for `7 ≤ n ≤ 10`, and no warning for
`n < 7` (the final warning starts only strictly above the threshold). -/
theorem c8_amended (n : Nat) :
    (n > 10 → warningFor n = .finalWarning)
    ∧ (7 ≤ n → n ≤ 10 → warningFor n = .remaining (10 - n))
    ∧ (n < 7 → warningFor n = .noWarning) := by
  unfold warningFor
  refine ⟨fun h => ?_, fun h1 h2 => ?_, fun h => ?_⟩
  · rw [if_pos h]
  · rw [if_neg (by omega), if_pos h1]
  · rw [if_neg (by omega), if_neg (by omega)]

/-- Claim C8, witness: count 8 produces the two-attempts-remaining
warning. -/
theorem c8_witness : warningFor 8 = Warning.remaining (10 - 8) :=
  (c8_amended 8).2.1 (by decide) (by decide)

/-- Claim C9: `deactivateThread` is idempotent at the store interface —
when no row matches the thread id, or every matching row is already
inactive, the store is returned unchanged (a no-op, never an error); in
general each row is mapped to itself with `is_active := false` exactly
when its thread id matches, all other fields untouched. -/
theorem c9_deactivate_idempotent (s : Store) (tid : String) :
    ((∀ r ∈ s, r.thread_id = tid → r.is_active = false) →
        deactivateThread s tid = s)
    ∧ (∀ i : Nat, (deactivateThread s tid)[i]?
        = (s[i]?).map (fun r : Record =>
            if r.thread_id = tid then { r with is_active := false } else r)) := by
  constructor
  · intro h
    unfold deactivateThread
    apply map_eq_self_of
    intro r hr
    by_cases ht : r.thread_id = tid
    · have hb : (r.thread_id == tid) = true := by simp [ht]
      rw [if_pos hb]
      exact record_inactive_eta (h r hr ht)
    · have hb : ¬((r.thread_id == tid) = true) := by simp [ht]
      rw [if_neg hb]
  · intro i
    unfold deactivateThread
    rw [List.getElem?_map]
    cases s[i]? with
    | none => rfl
    | some r =>
        simp only [Option.map_some']
        by_cases ht : r.thread_id = tid
        · have hb : (r.thread_id == tid) = true := by simp [ht]
          rw [if_pos hb, if_pos ht]
        · have hb : ¬((r.thread_id == tid) = true) := by simp [ht]
          rw [if_neg hb, if_neg ht]

/-- Claim C9, witness: deactivating a thread id whose only matching row is
already inactive leaves the two-row store exactly unchanged. -/
theorem c9_witness :
    deactivateThread [c9RecA, c9RecB] "gone" = [c9RecA, c9RecB] :=
  (c9_deactivate_idempotent [c9RecA, c9RecB] "gone").1 (by decide)

/-- Claim C10: `incrementAttempts` for a user with no active record
returns 0 and leaves the store unchanged — the `UPDATE` matches no row
(inactive rows are untouched) and the follow-up `SELECT` finds no row,
which the code maps to 0; no error is raised (the function is total). -/
theorem c10_increment_no_active (s : Store) (u : String)
    (h : activeFor s u = []) :
    incrementAttempts s u = (s, 0) := by
  have h' : s.filter (fun r => r.user_id == u && r.is_active) = [] := h
  have hp : ∀ r ∈ s, (r.user_id == u && r.is_active) = false := by
    intro r hr
    have h2 := List.filter_eq_nil_iff.mp h' r hr
    simpa using h2
  have hbump : bumpAttempts s u = s := by
    unfold bumpAttempts
    apply map_eq_self_of
    intro r hr
    simp [hp r hr]
  show (bumpAttempts s u,
        match getActiveThread (bumpAttempts s u) u with
        | some r => r.attempt_count
        | none => 0) = (s, 0)
  rw [hbump, getActiveThread_eq_none_iff.mpr h]

/-- Claim C10, witness: an increment for a user holding only an inactive
row returns 0 and leaves the row untouched. -/
theorem c10_witness : incrementAttempts [c10Rec] "u10" = ([c10Rec], 0) :=
  c10_increment_no_active [c10Rec] "u10" (by decide)

end Supportrr
